import Mathlib

/-!
Verification of the articulation-matching pipeline in `src/server.js`.

Strings are embedded as `List Char` (`Str`); the JS string operations
`indexOf`, `substring`, `includes`, `trim` and the control-character
cleanup regex are translated character-for-character.  The network is an
oracle record `Env`; the orchestrator `processUniversityPDFs` is embedded
as `runTrace`, the list of job-store operations it performs, in program
order, with one `Event.suspend` per `await` of a network or parse call.
-/

/-- Strings of the JS program, as lists of characters. -/
abbrev Str := List Char

/-- Characters removed by the cleanup regex `[\u0000-\u001F\u007F-\u009F]`
in `checkCourseArticulation` (src/server.js lines 175 and 178). -/
def isCtrl (c : Char) : Bool :=
  c.val ≤ 0x1F || (0x7F ≤ c.val && c.val ≤ 0x9F)

/-- `s.replace(/[\u0000-\u001F\u007F-\u009F]/g, "")`. -/
def cleanStr (s : Str) : Str := s.filter (fun c => !(isCtrl c))

/-- JS `hay.indexOf(pat)`: index of the first occurrence of `pat` in
`hay`, `none` for -1.  `indexOf` of the empty string is 0. -/
def indexOfSub : Str → Str → Option Nat
  | hay, pat =>
    if pat.isPrefixOf hay then some 0
    else
      match hay with
      | [] => none
      | _ :: t => (indexOfSub t pat).map (fun n => n + 1)

/-- JS `hay.includes(pat)`. -/
def containsSub (hay pat : Str) : Bool := (indexOfSub hay pat).isSome

/-- Whitespace for JS `String.prototype.trim` (WhiteSpace and
LineTerminator code points). -/
def isJsSpace (c : Char) : Bool :=
  c.val = 0x09 || c.val = 0x0A || c.val = 0x0B || c.val = 0x0C ||
  c.val = 0x0D || c.val = 0x20 || c.val = 0xA0 || c.val = 0x1680 ||
  (0x2000 ≤ c.val && c.val ≤ 0x200A) || c.val = 0x2028 || c.val = 0x2029 ||
  c.val = 0x202F || c.val = 0x205F || c.val = 0x3000 || c.val = 0xFEFF

/-- JS `s.trim()`. -/
def trimStr (s : Str) : Str :=
  ((s.dropWhile isJsSpace).reverse.dropWhile isJsSpace).reverse

/-- The marker of the institution-name line (src/server.js line 183). -/
def fromMarker : Str := "From:".toList

/-- The directional-marker token `"â†"` searched for after the course
code (src/server.js line 200): the mojibake the upstream lossy decoding
leaves in place of an arrow glyph. -/
def arrowToken : Str := ['â', '†']

/-- The negative phrases tested against the 30-character window
(src/server.js lines 210-214). -/
def notArticulated : List Str :=
  ["No Course Articulated".toList, "No Comparable Course".toList,
   "Course(s) Denied".toList]

/-- Result record of `checkCourseArticulation`: fields `college`,
`isArticulated`, `articulatedCourse`, `key`, and the `error` note only
present on the catch path (src/server.js lines 222-247). -/
structure CourseCheck where
  college : Str
  isArticulated : Bool
  articulatedCourse : Option Str
  key : Str
  error : Option Str
  deriving DecidableEq, Repr

/-- College-name extraction from the `"From:"` line (src/server.js lines
180-190): `college` stays empty when the marker is absent or no digit
`'2'` follows it; otherwise it is
`afterFrom.substring(0, yearIndex - 1).trim()`. -/
def extractCollege (cleanText : Str) : Str :=
  match indexOfSub cleanText fromMarker with
  | none => []
  | some fromIndex =>
    let afterFrom := cleanText.drop (fromIndex + 6)
    match indexOfSub afterFrom ['2'] with
    | none => []
    | some yearIndex => trimStr (afterFrom.take (yearIndex - 1))

/-- The shared fall-through return of `checkCourseArticulation`
(src/server.js lines 232-237). -/
def courseNotFoundResult (college : Str) (key : Str) : CourseCheck :=
  { college := college, isArticulated := false, articulatedCourse := none,
    key := key, error := none }

/-- The body of `checkCourseArticulation` (src/server.js lines 174-237)
on the text extracted from the PDF: clean both inputs, extract the
college name, find the course, find the arrow token after it, take the
30-character window at the arrow, and classify it against the negative
phrases. -/
def checkCourseArticulationText (text course key : Str) : CourseCheck :=
  let cleanCourse := cleanStr course
  let cleanText := cleanStr text
  let college := extractCollege cleanText
  match indexOfSub cleanText cleanCourse with
  | some searchPosition =>
    let afterCourse := cleanText.drop (searchPosition + cleanCourse.length)
    match indexOfSub afterCourse arrowToken with
    | some arrowIndex =>
      let articulatedSection := (afterCourse.drop arrowIndex).take 30
      let isNotArticulated :=
        notArticulated.any (fun phrase => containsSub articulatedSection phrase)
      if !isNotArticulated then
        { college := college, isArticulated := true,
          articulatedCourse := some (trimStr articulatedSection),
          key := key, error := none }
      else courseNotFoundResult college key
    | none => courseNotFoundResult college key
  | none => courseNotFoundResult college key

/-- `checkCourseArticulation` (src/server.js lines 169-248): the PDF
parse (`await PDFParser(pdfBuffer)`) may throw, in which case the catch
path returns an error record with `college` empty and
`isArticulated = false`. -/
def checkCourseArticulation (parsed : Except Str Str) (course key : Str) :
    CourseCheck :=
  match parsed with
  | .ok text => checkCourseArticulationText text course key
  | .error e =>
    { college := [], isArticulated := false, articulatedCourse := none,
      key := key, error := some e }

/-- One entry of the institutions listing.  The code reads exactly
`institution.id` and `institution.names[0].name` (src/server.js line 71);
`names` holds the name of each variant, and the directory contract
provides at least one variant per entry, so `names.headI` embeds
`names[0].name`. -/
structure Institution where
  id : Nat
  names : List Str
  deriving DecidableEq, Repr

/-- `institution.names[0].name`. -/
def primaryName (i : Institution) : Str := i.names.headI

/-- One entry of `majorData.reports` (src/server.js lines 107-109): the
code reads `label` and `key`. -/
structure MajorEntry where
  label : Str
  key : Str
  deriving DecidableEq, Repr

/-- Network oracle for one run: institutions listing, agreements listing
(already mapped to the `institutionParentId` of each entry), the
major-agreement listing per (receiving id, sending id), and the artifact
download per key giving an HTTP status and the PDF-parse outcome.
`Except.error` is a rejected promise (axios/network error). -/
structure Env where
  institutions : Except Str (List Institution)
  agreements : Except Str (List Nat)
  majors : Nat → Nat → Except Str (List MajorEntry)
  artifact : Str → Except Str (Nat × Except Str Str)

/-- Job status values stored in the `jobs` map. -/
inductive JStatus where
  | processing
  | completed
  | failed
  deriving DecidableEq, Repr

/-- A job record as stored in the `jobs` map.  Absent JS keys (such as
`createdAt`, never written anywhere) are `none`. -/
structure Job where
  status : JStatus
  progress : Str
  applicableColleges : List Str
  error : Option Str
  totalProcessed : Option Nat
  articulatedCount : Option Nat
  summary : Option Str
  createdAt : Option Nat
  deriving DecidableEq, Repr

/-- The record of the initial `jobs.set` (src/server.js lines 55-60). -/
def initialJob : Job :=
  { status := .processing, progress := "Fetching institutions...".toList,
    applicableColleges := [], error := none, totalProcessed := none,
    articulatedCount := none, summary := none, createdAt := none }

/-- The record of the catch-path `jobs.set` (src/server.js lines
159-164). -/
def failedJob (e : Str) : Job :=
  { status := .failed, progress := "Failed".toList,
    applicableColleges := [], error := some e, totalProcessed := none,
    articulatedCount := none, summary := none, createdAt := none }

/-- Summary string of the completion record (src/server.js line 155). -/
def summaryMsg (n : Nat) (course : Str) : Str :=
  "Found ".toList ++ (toString n).toList ++
    " colleges that articulate the course \"".toList ++ course ++
    "\"".toList

/-- The record of the completion `jobs.set` (src/server.js lines
148-156). -/
def completedJob (colleges : List Str) (processed : Nat) (course : Str) :
    Job :=
  { status := .completed, progress := "Done".toList,
    applicableColleges := colleges, error := none,
    totalProcessed := some processed,
    articulatedCount := some colleges.length,
    summary := some (summaryMsg colleges.length course), createdAt := none }

/-- The thrown not-found message (src/server.js line 79). -/
def notFoundMsg (university : Str) : Str :=
  "University \"".toList ++ university ++ "\" not found".toList

/-- Progress strings written by `updateJobProgress`. -/
def agreementsMsg : Str := "Fetching agreements...".toList

def processingCountMsg (n : Nat) : Str :=
  "Processing ".toList ++ (toString n).toList ++ " colleges...".toList

def processedMsg (p t : Nat) : Str :=
  "Processed ".toList ++ (toString p).toList ++ "/".toList ++
    (toString t).toList ++ " colleges".toList

/-- A job-store operation of the orchestrator task, or a suspension point
(an `await` of a network or parse call). -/
inductive Event where
  | set (j : Job)
  | setProgress (p : Str)
  | suspend
  deriving DecidableEq, Repr

/-- Effect of one event on the store entry of this job id.
`Event.setProgress` is `updateJobProgress` (src/server.js lines 255-261):
it mutates only `progress`, and only when the record exists. -/
def applyEvent : Option Job → Event → Option Job
  | _, .set j => some j
  | s, .setProgress p => s.map (fun j => { j with progress := p })
  | s, .suspend => s

def applyEvents (s : Option Job) (es : List Event) : Option Job :=
  es.foldl applyEvent s

/-- The university-id scan (src/server.js lines 69-76): the id of the
first institution whose first name variant equals `university` under JS
`===` (exact, case-sensitive). -/
def universityIdOf (insts : List Institution) (university : Str) :
    Option Nat :=
  (insts.find? (fun i => primaryName i == university)).map Institution.id

/-- JS truthiness of the `universityId` variable at the
`if (!universityId)` check (src/server.js line 78): `null` and `0` are
falsy. -/
def jsFalsyId : Option Nat → Bool
  | none => true
  | some n => n == 0

/-- JS truthiness of a string: the empty string is falsy
(`courseCheck.college` at src/server.js line 126). -/
def jsTruthyStr (s : Str) : Bool := !s.isEmpty

/-- The push condition at src/server.js lines 126-129: the college name
is pushed only when `isArticulated` and `college` is truthy. -/
def contribOf (cc : CourseCheck) : Option Str :=
  if cc.isArticulated && jsTruthyStr cc.college then some cc.college
  else none

/-- One iteration of the per-college try block (src/server.js lines
101-139): the events it produces (each network or parse `await` is a
suspension; the block performs no job-store write) and the college name
it pushes, if any.  A rejected promise is caught by the per-college
catch; a missing major or a non-200 status just falls through. -/
def processCollege (env : Env) (universityId : Nat) (major course : Str)
    (collegeId : Nat) : List Event × Option Str :=
  match env.majors universityId collegeId with
  | .error _ => ([.suspend], none)
  | .ok reports =>
    match reports.find? (fun r => r.label == major) with
    | none => ([.suspend], none)
    | some entry =>
      match env.artifact entry.key with
      | .error _ => ([.suspend, .suspend], none)
      | .ok (status, parsed) =>
        if status == 200 then
          ([.suspend, .suspend, .suspend],
           contribOf (checkCourseArticulation parsed course entry.key))
        else ([.suspend, .suspend], none)

/-- The per-college loop (src/server.js lines 100-145): after each
college, failed or not, `processedCount` is incremented and the progress
string is overwritten.  Returns the events, the accumulated
`applicableColleges`, and the final `processedCount`. -/
def processColleges (env : Env) (universityId : Nat) (major course : Str)
    (total : Nat) :
    List Nat → List Str → Nat → List Event × List Str × Nat
  | [], acc, processed => ([], acc, processed)
  | collegeId :: rest, acc, processed =>
    let step := processCollege env universityId major course collegeId
    let acc' := acc ++ step.2.toList
    let processed' := processed + 1
    let r := processColleges env universityId major course total rest acc'
      processed'
    (step.1 ++ .setProgress (processedMsg processed' total) :: r.1,
     r.2.1, r.2.2)

/-- The full trace of `processUniversityPDFs(jobId, university, major,
course)` (src/server.js lines 52-166), in program order: the initial
`jobs.set` runs synchronously before the first `await` (calling an async
function runs its body up to the first `await` before control returns to
the caller). -/
def runTrace (env : Env) (university major course : Str) : List Event :=
  .set initialJob ::
  .suspend ::
  match env.institutions with
  | .error e => [.set (failedJob e)]
  | .ok insts =>
    let uid? := universityIdOf insts university
    if jsFalsyId uid? then [.set (failedJob (notFoundMsg university))]
    else
      let uid := uid?.getD 0
      .setProgress agreementsMsg ::
      .suspend ::
      match env.agreements with
      | .error e => [.set (failedJob e)]
      | .ok collegeIds =>
        let r := processColleges env uid major course collegeIds.length
          collegeIds [] 0
        .setProgress (processingCountMsg collegeIds.length) ::
          (r.1 ++ [.set (completedJob r.2.1 r.2.2 course)])

/-- The store entry for this job id once the task has run to
completion. -/
def finalJob (env : Env) (university major course : Str) : Option Job :=
  applyEvents none (runTrace env university major course)

/-- JS truthiness of the `createdAt` field at the sweep's
`if (job.createdAt && ...)` (src/server.js line 267): an absent field and
`0` are falsy. -/
def jsTruthyNat : Option Nat → Bool
  | none => false
  | some n => n != 0

/-- The hourly cleanup sweep (src/server.js lines 264-271) over a store
snapshot: delete the entries whose `createdAt` is truthy and older than
the cutoff. -/
def sweep (cutoff : Nat) (store : List (Str × Job)) : List (Str × Job) :=
  store.filter
    (fun e => !(jsTruthyNat e.2.createdAt && decide (e.2.createdAt.getD 0 < cutoff)))

/-- Events other than a full `jobs.set`: they never change `status`,
`applicableColleges` or `createdAt`. -/
def isBenign : Event → Bool
  | .set _ => false
  | _ => true

/-- Per-partner failure modes for C7: a rejected major-agreement listing,
a missing major label, a rejected artifact download, a non-200 artifact
status, or a PDF-parse exception. -/
def partnerFails (env : Env) (universityId : Nat) (major : Str)
    (collegeId : Nat) : Prop :=
  (∃ e, env.majors universityId collegeId = .error e) ∨
  (∃ reports, env.majors universityId collegeId = .ok reports ∧
    reports.find? (fun r => r.label == major) = none) ∨
  (∃ reports entry, env.majors universityId collegeId = .ok reports ∧
    reports.find? (fun r => r.label == major) = some entry ∧
    ((∃ e, env.artifact entry.key = .error e) ∨
     (∃ st parsed, env.artifact entry.key = .ok (st, parsed) ∧ st ≠ 200) ∨
     (∃ st e, env.artifact entry.key = .ok (st, .error e))))

/-! ### Concrete environments used as witnesses and counterexamples -/

/-- Directory with a case-differing first name variant and a matching
second variant: resolution must still fail for `"ucla"`. -/
def envCaseMismatch : Env :=
  { institutions := .ok [Institution.mk 1 ["UCLA".toList, "ucla".toList]],
    agreements := .ok [], majors := fun _ _ => .ok [],
    artifact := fun _ => .ok (200, .ok []) }

/-- Two enumerated partners whose major listings are all rejected: every
partner fails individually, the job still completes. -/
def envDown : Env :=
  { institutions := .ok [Institution.mk 7 ["State U".toList]],
    agreements := .ok [5, 6], majors := fun _ _ => .error "down".toList,
    artifact := fun _ => .error "down".toList }

/-- Document text with the course articulated but no `"From:"` line, so
the extracted college name is empty. -/
def noFromText : Str := "CS 101 â†Accepted as CS1".toList

/-- One partner whose document is `noFromText`: the extractor reports
articulated, yet nothing is pushed to `applicableColleges` because the
empty college name is falsy. -/
def envNoFrom : Env :=
  { institutions := .ok [Institution.mk 1 ["State U".toList]],
    agreements := .ok [5],
    majors := fun _ _ =>
      .ok [MajorEntry.mk "Computer Science".toList "k1".toList],
    artifact := fun _ => .ok (200, .ok noFromText) }

/-- Document text with a `"From:"` line and the course articulated. -/
def withFromText : Str :=
  "From: Santa Monica College 2021-2022 CS 101 â†Accepted as CS1".toList

/-- One partner whose document is `withFromText`: articulated with a
non-empty college name, so the name is pushed. -/
def envWithFrom : Env :=
  { institutions := .ok [Institution.mk 1 ["State U".toList]],
    agreements := .ok [5],
    majors := fun _ _ =>
      .ok [MajorEntry.mk "Computer Science".toList "k1".toList],
    artifact := fun _ => .ok (200, .ok withFromText) }

/-! ### Substring-search lemmas -/

theorem indexOfSub_eq_none_iff (hay pat : Str) :
    indexOfSub hay pat = none ↔ ¬ pat <:+: hay := by
  induction hay with
  | nil =>
    unfold indexOfSub
    split
    · next h =>
      have hp : pat <:+: ([] : Str) :=
        ( List.isPrefixOf_iff_prefix.mp h).isInfix
      simp [hp]
    · next h =>
      have : ¬ pat <:+: ([] : Str) := by
        intro hinf
        have : pat = [] := List.sublist_nil.mp hinf.sublist
        subst this
        exact h (by simp [ List.isPrefixOf_iff_prefix])
      simpa using this
  | cons a t ih =>
    unfold indexOfSub
    split
    · next h =>
      have hp : pat <:+: a :: t :=
        ( List.isPrefixOf_iff_prefix.mp h).isInfix
      simp [hp]
    · next h =>
      have hnp : ¬ pat <+: a :: t := fun hp =>
        h ( List.isPrefixOf_iff_prefix.mpr hp)
      rw [Option.map_eq_none', ih, List.infix_cons_iff]
      tauto

theorem containsSub_iff (hay pat : Str) :
    containsSub hay pat = true ↔ pat <:+: hay := by
  rw [containsSub, Option.isSome_iff_ne_none]
  rw [Ne, indexOfSub_eq_none_iff, not_not]

/-! ### Articulation Extractor claims -/

theorem checkCourse_college (text course key : Str) :
    (checkCourseArticulationText text course key).college
      = extractCollege (cleanStr text) := by
  simp only [checkCourseArticulationText]
  split
  · split
    · split <;> rfl
    · rfl
  · rfl

/-- C3: when the normalized course code does not occur as a substring of
the normalized document text, the extractor reports not articulated, a
null articulated course, and no error. -/
theorem extract_course_absent (text course key : Str)
    (h : ¬ cleanStr course <:+: cleanStr text) :
    (checkCourseArticulationText text course key).isArticulated = false ∧
    (checkCourseArticulationText text course key).articulatedCourse = none ∧
    (checkCourseArticulationText text course key).error = none := by
  have hn : indexOfSub (cleanStr text) (cleanStr course) = none :=
    (indexOfSub_eq_none_iff _ _).mpr h
  simp only [checkCourseArticulationText, hn]
  exact ⟨rfl, rfl, rfl⟩

theorem extract_course_absent_witness :
    (¬ cleanStr "CS 101".toList <:+: cleanStr "no course here".toList) ∧
    (checkCourseArticulationText "no course here".toList "CS 101".toList
        "k1".toList).isArticulated = false :=
  ⟨by decide,
   (extract_course_absent "no course here".toList "CS 101".toList
     "k1".toList (by decide)).1⟩

/-- C4: when the normalized course code occurs at first position `p` but
the directional-marker token occurs nowhere in the text after the end of
that occurrence, the extractor reports not articulated. -/
theorem extract_no_arrow (text course key : Str) (p : Nat)
    (h1 : indexOfSub (cleanStr text) (cleanStr course) = some p)
    (h2 : ¬ arrowToken <:+:
        (cleanStr text).drop (p + (cleanStr course).length)) :
    (checkCourseArticulationText text course key).isArticulated = false := by
  have hn : indexOfSub ((cleanStr text).drop (p + (cleanStr course).length))
      arrowToken = none := (indexOfSub_eq_none_iff _ _).mpr h2
  simp only [checkCourseArticulationText, h1, hn]
  rfl

theorem extract_no_arrow_witness :
    indexOfSub (cleanStr "CS 101 is listed".toList)
        (cleanStr "CS 101".toList) = some 0 ∧
    (¬ arrowToken <:+:
        (cleanStr "CS 101 is listed".toList).drop
          (0 + (cleanStr "CS 101".toList).length)) ∧
    (checkCourseArticulationText "CS 101 is listed".toList "CS 101".toList
        "k1".toList).isArticulated = false :=
  ⟨by decide, by decide,
   extract_no_arrow "CS 101 is listed".toList "CS 101".toList "k1".toList 0
     (by decide) (by decide)⟩

/-- C5: when the course code is found and the marker token follows it,
the 30-character window starting at the marker position decides the
verdict: a contained negative phrase gives not articulated, otherwise
articulated with the trimmed window as the articulated course text. -/
theorem extract_arrow_window (text course key : Str) (p a : Nat)
    (h1 : indexOfSub (cleanStr text) (cleanStr course) = some p)
    (h2 : indexOfSub ((cleanStr text).drop (p + (cleanStr course).length))
        arrowToken = some a) :
    ((∃ ph ∈ notArticulated, ph <:+:
        ((((cleanStr text).drop (p + (cleanStr course).length)).drop a).take
          30)) →
      (checkCourseArticulationText text course key).isArticulated = false) ∧
    ((∀ ph ∈ notArticulated, ¬ ph <:+:
        ((((cleanStr text).drop (p + (cleanStr course).length)).drop a).take
          30)) →
      (checkCourseArticulationText text course key).isArticulated = true ∧
      (checkCourseArticulationText text course key).articulatedCourse
        = some (trimStr
            ((((cleanStr text).drop (p + (cleanStr course).length)).drop
              a).take 30))) := by
  constructor
  · rintro ⟨ph, hmem, hinf⟩
    have hany : notArticulated.any (fun phrase =>
        containsSub ((((cleanStr text).drop
          (p + (cleanStr course).length)).drop a).take 30) phrase) = true :=
      List.any_eq_true.mpr ⟨ph, hmem, (containsSub_iff _ _).mpr hinf⟩
    simp only [checkCourseArticulationText, h1, h2, hany]
    rfl
  · intro hall
    have hany : notArticulated.any (fun phrase =>
        containsSub ((((cleanStr text).drop
          (p + (cleanStr course).length)).drop a).take 30) phrase) = false := by
      rw [Bool.eq_false_iff]
      intro hc
      obtain ⟨ph, hmem, hph⟩ := List.any_eq_true.mp hc
      exact hall ph hmem ((containsSub_iff _ _).mp hph)
    simp only [checkCourseArticulationText, h1, h2, hany]
    exact ⟨rfl, rfl⟩

theorem extract_arrow_window_witness :
    indexOfSub (cleanStr "CS 101 â†Accepted as CS1".toList)
        (cleanStr "CS 101".toList) = some 0 ∧
    indexOfSub ((cleanStr "CS 101 â†Accepted as CS1".toList).drop
        (0 + (cleanStr "CS 101".toList).length)) arrowToken = some 1 ∧
    (∀ ph ∈ notArticulated, ¬ ph <:+:
        ((((cleanStr "CS 101 â†Accepted as CS1".toList).drop
          (0 + (cleanStr "CS 101".toList).length)).drop 1).take 30)) ∧
    (checkCourseArticulationText "CS 101 â†Accepted as CS1".toList
        "CS 101".toList "k1".toList).isArticulated = true :=
  ⟨by decide, by decide, by decide,
   ((extract_arrow_window "CS 101 â†Accepted as CS1".toList "CS 101".toList
       "k1".toList 0 1 (by decide) (by decide)).2 (by decide)).1⟩

/-- C6: institution-name extraction.  When the `"From:"` marker is found
at first position `i` and the digit `'2'` is found at first position `y`
of the text starting 6 characters past the marker's start, the reported
college name is that text cut one character before the `'2'` and trimmed;
when the marker is absent, or no `'2'` follows it, the college name is
empty. -/
theorem extract_institution_name (text course key : Str) :
    (indexOfSub (cleanStr text) fromMarker = none →
      (checkCourseArticulationText text course key).college = []) ∧
    (∀ i, indexOfSub (cleanStr text) fromMarker = some i →
      (indexOfSub ((cleanStr text).drop (i + 6)) ['2'] = none →
        (checkCourseArticulationText text course key).college = []) ∧
      (∀ y, indexOfSub ((cleanStr text).drop (i + 6)) ['2'] = some y →
        (checkCourseArticulationText text course key).college
          = trimStr (((cleanStr text).drop (i + 6)).take (y - 1)))) := by
  rw [checkCourse_college]
  refine ⟨fun h => ?_, fun i hi => ⟨fun h2 => ?_, fun y hy => ?_⟩⟩
  · simp only [extractCollege, h]
  · simp only [extractCollege, hi, h2]
  · simp only [extractCollege, hi, hy]

theorem extract_institution_name_witness :
    indexOfSub (cleanStr "From: Santa Monica College 2021-2022".toList)
        fromMarker = some 0 ∧
    indexOfSub ((cleanStr
        "From: Santa Monica College 2021-2022".toList).drop (0 + 6))
        ['2'] = some 21 ∧
    (checkCourseArticulationText
        "From: Santa Monica College 2021-2022".toList "CS 101".toList
        "k1".toList).college = "Santa Monica College".toList :=
  ⟨by decide, by decide, by
    have h := ((extract_institution_name
      "From: Santa Monica College 2021-2022".toList "CS 101".toList
      "k1".toList).2 0 (by decide)).2 21 (by decide)
    rw [h]
    decide⟩

/-! ### Orchestrator trace lemmas -/

theorem applyEvents_cons (s : Option Job) (e : Event) (l : List Event) :
    applyEvents s (e :: l) = applyEvents (applyEvent s e) l := rfl

theorem applyEvents_append (s : Option Job) (l₁ l₂ : List Event) :
    applyEvents s (l₁ ++ l₂) = applyEvents (applyEvents s l₁) l₂ :=
  List.foldl_append _ _ _ _

theorem applyEvents_last_set (s : Option Job) (l : List Event) (j : Job) :
    applyEvents s (l ++ [.set j]) = some j := by
  rw [applyEvents_append]; rfl

theorem applyEvents_benign : ∀ (q : List Event),
    (∀ e ∈ q, isBenign e = true) →
    ∀ j : Job, ∃ pr, applyEvents (some j) q = some { j with progress := pr } := by
  intro q
  induction q with
  | nil => intro _ j; exact ⟨j.progress, rfl⟩
  | cons e q ih =>
    intro hq j
    have he : isBenign e = true := hq e (List.mem_cons_self e q)
    have hq' : ∀ e' ∈ q, isBenign e' = true := fun e' h' =>
      hq e' (List.mem_cons_of_mem e h')
    cases e with
    | set j' => simp [isBenign] at he
    | setProgress pr =>
      obtain ⟨pr', h⟩ := ih hq' { j with progress := pr }
      exact ⟨pr', h⟩
    | suspend =>
      obtain ⟨pr', h⟩ := ih hq' j
      exact ⟨pr', h⟩

theorem pre_snoc {α : Type} (r l : List α) (a : α) (h : r <+: l ++ [a]) :
    r <+: l ∨ r = l ++ [a] := by
  obtain ⟨t, ht⟩ := h
  rcases List.eq_nil_or_concat t with rfl | ⟨t', b, rfl⟩
  · right; simpa using ht
  · left
    rw [List.concat_eq_append, ← List.append_assoc] at ht
    obtain ⟨h1, _⟩ := List.append_inj' ht rfl
    exact ⟨t', h1⟩

theorem processCollege_benign (env : Env) (uid : Nat) (major course : Str)
    (cid : Nat) :
    ∀ e ∈ (processCollege env uid major course cid).1, isBenign e = true := by
  intro e he
  unfold processCollege at he
  repeat' split at he
  all_goals fin_cases he <;> rfl

theorem processColleges_benign (env : Env) (uid : Nat) (major course : Str)
    (total : Nat) : ∀ (cids : List Nat) (acc : List Str) (p : Nat),
    ∀ e ∈ (processColleges env uid major course total cids acc p).1,
    isBenign e = true := by
  intro cids
  induction cids with
  | nil => intro acc p e he; simp [processColleges] at he
  | cons cid rest ih =>
    intro acc p e he
    simp only [processColleges, List.mem_append, List.mem_cons] at he
    rcases he with h | h | h
    · exact processCollege_benign env uid major course cid e h
    · subst h; rfl
    · exact ih _ _ e h

theorem processColleges_processed (env : Env) (uid : Nat)
    (major course : Str) (total : Nat) :
    ∀ (cids : List Nat) (acc : List Str) (p : Nat),
    (processColleges env uid major course total cids acc p).2.2
      = p + cids.length := by
  intro cids
  induction cids with
  | nil => intro acc p; simp [processColleges]
  | cons cid rest ih =>
    intro acc p
    simp only [processColleges, ih, List.length_cons]
    omega

theorem processColleges_colleges (env : Env) (uid : Nat)
    (major course : Str) (total : Nat) :
    ∀ (cids : List Nat) (acc : List Str) (p : Nat),
    (processColleges env uid major course total cids acc p).2.1
      = acc ++ cids.filterMap
          (fun cid => (processCollege env uid major course cid).2) := by
  intro cids
  induction cids with
  | nil => intro acc p; simp [processColleges]
  | cons cid rest ih =>
    intro acc p
    simp only [processColleges, ih, List.filterMap_cons]
    cases h : (processCollege env uid major course cid).2 with
    | none => simp [h]
    | some x => simp [h]

theorem runTrace_instsError (env : Env) (u m c : Str) (e : Str)
    (h : env.institutions = .error e) :
    runTrace env u m c = [.set initialJob, .suspend, .set (failedJob e)] := by
  unfold runTrace
  simp [h]

theorem runTrace_notFound (env : Env) (u m c : Str)
    (insts : List Institution) (h1 : env.institutions = .ok insts)
    (h2 : universityIdOf insts u = none) :
    runTrace env u m c =
      [.set initialJob, .suspend, .set (failedJob (notFoundMsg u))] := by
  unfold runTrace
  simp [h1, h2, jsFalsyId]

theorem runTrace_agreementsError (env : Env) (u m c : Str)
    (insts : List Institution) (uid : Nat) (e : Str)
    (h1 : env.institutions = .ok insts)
    (h2 : universityIdOf insts u = some uid) (h3 : uid ≠ 0)
    (h4 : env.agreements = .error e) :
    runTrace env u m c =
      [.set initialJob, .suspend, .setProgress agreementsMsg, .suspend,
       .set (failedJob e)] := by
  unfold runTrace
  have hf : jsFalsyId (some uid) = false := by simp [jsFalsyId, h3]
  simp [h1, h2, h4, hf]

theorem runTrace_ok (env : Env) (u m c : Str) (insts : List Institution)
    (uid : Nat) (collegeIds : List Nat)
    (h1 : env.institutions = .ok insts)
    (h2 : universityIdOf insts u = some uid) (h3 : uid ≠ 0)
    (h4 : env.agreements = .ok collegeIds) :
    runTrace env u m c =
      .set initialJob :: .suspend :: .setProgress agreementsMsg :: .suspend ::
        .setProgress (processingCountMsg collegeIds.length) ::
        ((processColleges env uid m c collegeIds.length collegeIds [] 0).1 ++
          [.set (completedJob
            (processColleges env uid m c collegeIds.length collegeIds [] 0).2.1
            (processColleges env uid m c collegeIds.length collegeIds [] 0).2.2
            c)]) := by
  unfold runTrace
  have hf : jsFalsyId (some uid) = false := by simp [jsFalsyId, h3]
  simp [h1, h2, h4, hf]

theorem runTrace_falsy (env : Env) (u m c : Str)
    (insts : List Institution) (h1 : env.institutions = .ok insts)
    (h2 : jsFalsyId (universityIdOf insts u) = true) :
    runTrace env u m c =
      [.set initialJob, .suspend, .set (failedJob (notFoundMsg u))] := by
  unfold runTrace
  simp [h1, h2]

theorem final_of_decomp (mid : List Event) (fin : Job) :
    applyEvents none (.set initialJob :: (mid ++ [.set fin])) = some fin := by
  rw [applyEvents_cons]
  exact applyEvents_last_set _ mid fin

theorem runTrace_shape (env : Env) (u m c : Str) :
    ∃ mid fin, runTrace env u m c = .set initialJob :: (mid ++ [.set fin]) ∧
      (∀ e ∈ mid, isBenign e = true) ∧
      (fin.status = .completed ∨ fin.status = .failed) ∧
      fin.createdAt = none ∧
      (fin.status = .completed →
        fin.articulatedCount = some fin.applicableColleges.length) := by
  cases hi : env.institutions with
  | error e =>
    refine ⟨[.suspend], failedJob e, ?_, ?_, .inr rfl, rfl, ?_⟩
    · rw [runTrace_instsError env u m c e hi]; rfl
    · intro e' he'; fin_cases he'; rfl
    · intro h; exact JStatus.noConfusion h
  | ok insts =>
    cases hf : jsFalsyId (universityIdOf insts u) with
    | true =>
      refine ⟨[.suspend], failedJob (notFoundMsg u), ?_, ?_, .inr rfl, rfl, ?_⟩
      · rw [runTrace_falsy env u m c insts hi hf]; rfl
      · intro e' he'; fin_cases he'; rfl
      · intro h; exact JStatus.noConfusion h
    | false =>
      have hex : ∃ uid, universityIdOf insts u = some uid ∧ uid ≠ 0 := by
        cases hu : universityIdOf insts u with
        | none => rw [hu] at hf; cases hf
        | some n =>
          refine ⟨n, rfl, ?_⟩
          rw [hu] at hf
          simpa [jsFalsyId] using hf
      obtain ⟨uid, hu, hne⟩ := hex
      cases ha : env.agreements with
      | error e =>
        refine ⟨[.suspend, .setProgress agreementsMsg, .suspend], failedJob e,
          ?_, ?_, .inr rfl, rfl, ?_⟩
        · rw [runTrace_agreementsError env u m c insts uid e hi hu hne ha]; rfl
        · intro e' he'; fin_cases he' <;> rfl
        · intro h; exact JStatus.noConfusion h
      | ok collegeIds =>
        refine ⟨.suspend :: .setProgress agreementsMsg :: .suspend ::
          .setProgress (processingCountMsg collegeIds.length) ::
          (processColleges env uid m c collegeIds.length collegeIds [] 0).1,
          completedJob
            (processColleges env uid m c collegeIds.length collegeIds [] 0).2.1
            (processColleges env uid m c collegeIds.length collegeIds [] 0).2.2
            c, ?_, ?_, .inl rfl, rfl, fun _ => rfl⟩
        · rw [runTrace_ok env u m c insts uid collegeIds hi hu hne ha]; rfl
        · intro e' he'
          simp only [List.mem_cons] at he'
          rcases he' with rfl | rfl | rfl | rfl | h
          · rfl
          · rfl
          · rfl
          · rfl
          · exact processColleges_benign env uid m c collegeIds.length
              collegeIds [] 0 e' h

theorem state_of_decomp (mid : List Event) (fin : Job)
    (hben : ∀ e ∈ mid, isBenign e = true) (p : List Event)
    (hp : p <+: .set initialJob :: (mid ++ [.set fin])) :
    applyEvents none p = none ∨
    (∃ pr, applyEvents none p = some { initialJob with progress := pr }) ∨
    p = .set initialJob :: (mid ++ [.set fin]) := by
  cases p with
  | nil => exact .inl rfl
  | cons e p' =>
    obtain ⟨he, hp'⟩ := List.cons_prefix_cons.mp hp
    subst he
    rcases pre_snoc p' mid (.set fin) hp' with h | h
    · refine .inr (.inl ?_)
      have hb : ∀ e' ∈ p', isBenign e' = true := fun e' he' =>
        hben e' (h.sublist.subset he')
      exact applyEvents_benign p' hb initialJob
    · subst h
      exact .inr (.inr rfl)

/-! ### Orchestrator claims -/

/-- C2: institution resolution compares the requested name against each
entry's first name variant with exact (case-sensitive) string equality;
when no entry's first name variant equals the request, the job ends
Failed, with an error message containing the requested name, and an
empty `applicableColleges`. -/
theorem institution_resolution_failure (env : Env) (u m c : Str)
    (insts : List Institution) (h1 : env.institutions = .ok insts)
    (h2 : ∀ i ∈ insts, primaryName i ≠ u) :
    ∃ j, finalJob env u m c = some j ∧ j.status = .failed ∧
      (∃ msg, j.error = some msg ∧ u <:+: msg) ∧
      j.applicableColleges = [] := by
  have hn : universityIdOf insts u = none := by
    unfold universityIdOf
    rw [List.find?_eq_none.mpr]
    · rfl
    · intro i hi
      simpa using h2 i hi
  have hfin : finalJob env u m c = some (failedJob (notFoundMsg u)) := by
    unfold finalJob
    rw [runTrace_falsy env u m c insts h1 (by rw [hn]; rfl)]
    rfl
  refine ⟨failedJob (notFoundMsg u), hfin, rfl, ⟨notFoundMsg u, rfl, ?_⟩, rfl⟩
  exact ⟨"University \"".toList, "\" not found".toList, rfl⟩

theorem institution_resolution_failure_witness :
    (∀ i ∈ [Institution.mk 1 ["UCLA".toList, "ucla".toList]],
      primaryName i ≠ "ucla".toList) ∧
    ∃ j, finalJob envCaseMismatch ("ucla".toList) ("Math".toList)
        ("M1".toList) = some j ∧
      j.status = .failed ∧ (∃ msg, j.error = some msg ∧
        "ucla".toList <:+: msg) ∧ j.applicableColleges = [] :=
  ⟨by decide,
   institution_resolution_failure envCaseMismatch ("ucla".toList)
     ("Math".toList) ("M1".toList)
     [Institution.mk 1 ["UCLA".toList, "ucla".toList]] rfl (by decide)⟩

/-- C10: the first operation of the background task's trace is the
insertion of the job record, with status Processing, before any
suspension point; once that single event is applied the store lookup for
the job id succeeds, so an immediate poll cannot miss the job. -/
theorem job_inserted_before_first_suspend (env : Env) (u m c : Str) :
    (∃ rest, runTrace env u m c = .set initialJob :: rest) ∧
    initialJob.status = .processing ∧
    applyEvents none [Event.set initialJob] = some initialJob := by
  refine ⟨⟨(runTrace env u m c).tail, ?_⟩, rfl, rfl⟩
  unfold runTrace
  rfl

theorem finalJob_ok (env : Env) (u m c : Str) (insts : List Institution)
    (uid : Nat) (collegeIds : List Nat)
    (h1 : env.institutions = .ok insts)
    (h2 : universityIdOf insts u = some uid) (h3 : uid ≠ 0)
    (h4 : env.agreements = .ok collegeIds) :
    finalJob env u m c = some (completedJob
      (collegeIds.filterMap (fun cid => (processCollege env uid m c cid).2))
      collegeIds.length c) := by
  unfold finalJob
  rw [runTrace_ok env u m c insts uid collegeIds h1 h2 h3 h4]
  rw [applyEvents_cons, applyEvents_cons, applyEvents_cons, applyEvents_cons,
    applyEvents_cons, applyEvents_last_set]
  rw [processColleges_colleges, processColleges_processed]
  simp

/-- C7: a completed job has `totalProcessed` equal to the number of
enumerated partner identifiers; any individually failing partner
contributes no entry to the match list; and the job status stays
Processing at every point strictly before the end of the run. -/
theorem per_partner_isolation (env : Env) (u m c : Str)
    (insts : List Institution) (uid : Nat) (collegeIds : List Nat)
    (h1 : env.institutions = .ok insts)
    (h2 : universityIdOf insts u = some uid) (h3 : uid ≠ 0)
    (h4 : env.agreements = .ok collegeIds) :
    (∃ j, finalJob env u m c = some j ∧ j.status = .completed ∧
      j.totalProcessed = some collegeIds.length) ∧
    (∀ cid, partnerFails env uid m cid →
      (processCollege env uid m c cid).2 = none) ∧
    (∀ p, p <+: runTrace env u m c → p ≠ runTrace env u m c →
      ∀ j', applyEvents none p = some j' → j'.status = .processing) := by
  refine ⟨⟨_, finalJob_ok env u m c insts uid collegeIds h1 h2 h3 h4,
    rfl, rfl⟩, ?_, ?_⟩
  · intro cid hfail
    rcases hfail with ⟨e, he⟩ | ⟨reports, hr, hn⟩ |
      ⟨reports, entry, hr, hfind, hart⟩
    · unfold processCollege
      simp [he]
    · unfold processCollege
      simp [hr, hn]
    · unfold processCollege
      rcases hart with ⟨e, he⟩ | ⟨st, parsed, he, hst⟩ | ⟨st, e, he⟩
      · simp [hr, hfind, he]
      · have : (st == 200) = false := by simpa using hst
        simp [hr, hfind, he, this]
      · by_cases hst : st = 200
        · subst hst
          simp [hr, hfind, he, checkCourseArticulation, contribOf]
        · have : (st == 200) = false := by simpa using hst
          simp [hr, hfind, he, this]
  · intro p hp hne j' hj'
    obtain ⟨mid, fin, htr, hben, hst, hcr, hcnt⟩ := runTrace_shape env u m c
    rw [htr] at hp hne
    rcases state_of_decomp mid fin hben p hp with h0 | ⟨pr, hpr⟩ | hw
    · rw [h0] at hj'; cases hj'
    · rw [hpr] at hj'
      rw [← Option.some_inj.mp hj']
      rfl
    · exact absurd hw hne

theorem per_partner_isolation_witness :
    partnerFails envDown 7 ("Math".toList) 5 ∧
    ∃ j, finalJob envDown ("State U".toList) ("Math".toList) ("M1".toList)
        = some j ∧
      j.status = .completed ∧ j.totalProcessed = some 2 :=
  ⟨Or.inl ⟨"down".toList, rfl⟩,
   (per_partner_isolation envDown ("State U".toList) ("Math".toList)
     ("M1".toList) [Institution.mk 7 ["State U".toList]] 7 [5, 6] rfl
     (by decide) (by decide) rfl).1⟩

/-- C8: over any consecutive pair of store states of a run, the status
either stays the same or moves from Processing to a terminal state; a
terminal state is never mutated; the match list changes only from a
Processing state and only by extension; and a completed record carries
`articulatedCount` equal to the length of its match list. -/
theorem job_store_invariants (env : Env) (u m c : Str) :
    (∀ p e j j', p ++ [e] <+: runTrace env u m c →
      applyEvents none p = some j →
      applyEvents none (p ++ [e]) = some j' →
      (j.status = j'.status ∨
        (j.status = .processing ∧
          (j'.status = .completed ∨ j'.status = .failed))) ∧
      (j.status ≠ .processing → j' = j) ∧
      (j'.applicableColleges ≠ j.applicableColleges →
        j.status = .processing ∧
        j.applicableColleges <+: j'.applicableColleges)) ∧
    (∀ j, finalJob env u m c = some j → j.status = .completed →
      j.articulatedCount = some j.applicableColleges.length) := by
  obtain ⟨mid, fin, htr, hben, hst, hcr, hcnt⟩ := runTrace_shape env u m c
  constructor
  · intro p e j j' hpre hj hj'
    rw [htr] at hpre
    have hp : p <+: .set initialJob :: (mid ++ [.set fin]) :=
      (List.prefix_append p [e]).trans hpre
    have hplt : p.length < (.set initialJob :: (mid ++ [.set fin]) :
        List Event).length := by
      have := hpre.length_le
      simp only [List.length_append, List.length_cons] at this ⊢
      omega
    have hjv : ∃ pr, j = { initialJob with progress := pr } := by
      rcases state_of_decomp mid fin hben p hp with h0 | ⟨pr, hpr⟩ | hw
      · rw [h0] at hj; cases hj
      · rw [hpr] at hj
        exact ⟨pr, (Option.some_inj.mp hj).symm⟩
      · rw [hw] at hplt
        omega
    obtain ⟨pr, hjv⟩ := hjv
    rcases state_of_decomp mid fin hben (p ++ [e]) hpre
      with h0 | ⟨pr', hpr'⟩ | hw
    · rw [h0] at hj'; cases hj'
    · have hjv' : j' = { initialJob with progress := pr' } := by
        rw [hpr'] at hj'
        exact (Option.some_inj.mp hj').symm
      subst hjv hjv'
      exact ⟨.inl rfl, fun hne => absurd rfl hne, fun hne => absurd rfl hne⟩
    · have hj'fin : j' = fin := by
        rw [hw, final_of_decomp mid fin] at hj'
        exact (Option.some_inj.mp hj').symm
      subst hjv hj'fin
      refine ⟨.inr ⟨rfl, hst⟩, fun hne => absurd rfl hne, fun _ => ⟨rfl, ?_⟩⟩
      exact List.nil_prefix
  · intro j hj hcompleted
    have : j = fin := by
      unfold finalJob at hj
      rw [htr, final_of_decomp mid fin] at hj
      exact (Option.some_inj.mp hj).symm
    subst this
    exact hcnt hcompleted

theorem job_store_invariants_witness :
    ([Event.set initialJob] ++ [Event.suspend] <+:
      runTrace envDown ("State U".toList) ("Math".toList) ("M1".toList)) ∧
    applyEvents none [Event.set initialJob] = some initialJob ∧
    (initialJob.status = initialJob.status ∨
      (initialJob.status = .processing ∧
        (initialJob.status = .completed ∨ initialJob.status = .failed))) :=
  ⟨by decide, rfl,
   ((job_store_invariants envDown ("State U".toList) ("Math".toList)
       ("M1".toList)).1 [Event.set initialJob] Event.suspend initialJob
       initialJob (by decide) rfl rfl).1⟩

/-- C9: no store write of the orchestrator ever populates `createdAt`
(every reachable record has it absent), and the cleanup sweep leaves any
store of such records unchanged, removing no job. -/
theorem createdAt_inert_sweep :
    (∀ (env : Env) (u m c : Str) (p : List Event) (j : Job),
      p <+: runTrace env u m c → applyEvents none p = some j →
      j.createdAt = none) ∧
    (∀ (cutoff : Nat) (store : List (Str × Job)),
      (∀ x ∈ store, x.2.createdAt = none) → sweep cutoff store = store) := by
  constructor
  · intro env u m c p j hp hj
    obtain ⟨mid, fin, htr, hben, _, hcr, _⟩ := runTrace_shape env u m c
    rw [htr] at hp
    rcases state_of_decomp mid fin hben p hp with h0 | ⟨pr, hpr⟩ | hw
    · rw [h0] at hj; cases hj
    · rw [hpr] at hj
      rw [← Option.some_inj.mp hj]
      rfl
    · rw [hw, final_of_decomp mid fin] at hj
      rw [← Option.some_inj.mp hj]
      exact hcr
  · intro cutoff store hstore
    unfold sweep
    rw [List.filter_eq_self]
    intro x hx
    simp [hstore x hx, jsTruthyNat]

theorem createdAt_inert_sweep_witness :
    (∀ x ∈ [(("j1".toList : Str), initialJob)], x.2.createdAt = none) ∧
    sweep 99 [(("j1".toList : Str), initialJob)]
      = [(("j1".toList : Str), initialJob)] :=
  ⟨by decide,
   createdAt_inert_sweep.2 99 [(("j1".toList : Str), initialJob)]
     (by decide)⟩

/-- C1, counterexample: with the document `noFromText` the extractor
reports articulated, the partner's document was fetched with status 200,
yet the completed job's match list is empty — the MatchResult is not
appended, because the push at src/server.js line 126 also requires a
truthy (non-empty) college name, and only ever pushes the name string. -/
theorem articulated_without_college_dropped :
    (checkCourseArticulation (.ok noFromText) ("CS 101".toList)
        ("k1".toList)).isArticulated = true ∧
    (finalJob envNoFrom ("State U".toList) ("Computer Science".toList)
        ("CS 101".toList)).map
        (fun j => (j.status, j.applicableColleges)) =
      some (JStatus.completed, []) := by
  constructor
  · decide
  · decide

/-- C1, amended: a partner whose document is fetched with status 200,
whose extraction reports articulated, and whose extracted college name is
non-empty has that college name (not a full MatchResult record) appended
to the job's match list. -/
theorem positive_match_appended (env : Env) (u m c : Str)
    (insts : List Institution) (uid : Nat) (collegeIds : List Nat)
    (h1 : env.institutions = .ok insts)
    (h2 : universityIdOf insts u = some uid) (h3 : uid ≠ 0)
    (h4 : env.agreements = .ok collegeIds)
    (cid : Nat) (h5 : cid ∈ collegeIds)
    (reports : List MajorEntry) (h6 : env.majors uid cid = .ok reports)
    (entry : MajorEntry)
    (h7 : reports.find? (fun r => r.label == m) = some entry)
    (parsed : Except Str Str)
    (h8 : env.artifact entry.key = .ok (200, parsed))
    (h9 : (checkCourseArticulation parsed c entry.key).isArticulated = true)
    (h10 : (checkCourseArticulation parsed c entry.key).college ≠ []) :
    ∃ j, finalJob env u m c = some j ∧ j.status = .completed ∧
      (checkCourseArticulation parsed c entry.key).college
        ∈ j.applicableColleges := by
  refine ⟨_, finalJob_ok env u m c insts uid collegeIds h1 h2 h3 h4,
    rfl, ?_⟩
  have hemp : (checkCourseArticulation parsed c
      entry.key).college.isEmpty = false := by
    cases hcol : (checkCourseArticulation parsed c entry.key).college with
    | nil => exact absurd hcol h10
    | cons a l => rfl
  have hc : (processCollege env uid m c cid).2
      = some (checkCourseArticulation parsed c entry.key).college := by
    unfold processCollege
    simp [h6, h7, h8, contribOf, jsTruthyStr, h9, hemp]
  exact List.mem_filterMap.mpr ⟨cid, h5, hc⟩

theorem positive_match_appended_witness :
    (checkCourseArticulation (.ok withFromText) ("CS 101".toList)
        ("k1".toList)).isArticulated = true ∧
    (checkCourseArticulation (.ok withFromText) ("CS 101".toList)
        ("k1".toList)).college ≠ [] ∧
    ∃ j, finalJob envWithFrom ("State U".toList)
        ("Computer Science".toList) ("CS 101".toList) = some j ∧
      j.status = .completed ∧
      (checkCourseArticulation (.ok withFromText) ("CS 101".toList)
          ("k1".toList)).college ∈ j.applicableColleges :=
  ⟨by decide, by decide,
   positive_match_appended envWithFrom ("State U".toList)
     ("Computer Science".toList) ("CS 101".toList)
     [Institution.mk 1 ["State U".toList]] 1 [5] rfl (by decide) (by decide)
     rfl 5 (by decide)
     [MajorEntry.mk "Computer Science".toList "k1".toList] rfl
     (MajorEntry.mk "Computer Science".toList "k1".toList) (by decide)
     (.ok withFromText) rfl (by decide) (by decide)⟩
